import Mathlib

/-!
# Verification of the a2ltool instance-update engine

Shallow embedding of `src/update/instance.rs` (the per-kind update procedure for
INSTANCE objects, its address/type normalization, and the cascading cleanup),
together with spec-modelled stubs for the collaborators that live outside the
given sources (the symbol resolver `get_symbol_info`, `set_symbol_link`, the
ifdata patching helpers, and the four per-domain cleanup functions).

Machine integers are modelled as `Nat` with explicit reductions where the source
truncates: the `u32` start address uses `% 2^32` at its write site (the Rust
`sym_info.address as u32`), and the `u16` matrix dimensions use `% 2^16`
(the Rust `*d as u16`).
-/

namespace A2lTool

/-- Modelled from the spec (§3 Data model, "Type description"): the missing
dwarf module's type representation. A tagged variant over base scalar,
pointer-to (carrying the pointee byte size, per §4.2 step 1), array-of
(carrying the dimension extents), and aggregate (opaque to the update engine,
identified by a handle). -/
inductive TypeInfo where
  | base (size : Nat)
  | pointer (ptSize : Nat) (pointee : TypeInfo)
  | array (dim : List Nat) (arraytype : TypeInfo)
  | aggregate (id : Nat)
deriving Repr, DecidableEq

/-- Modelled from the spec: `TypeInfo::get_pointer` from the missing dwarf
module. Returns the pointee byte size and the pointee type for a pointer,
`none` otherwise (§4.2 step 1). -/
def TypeInfo.get_pointer : TypeInfo → Option (Nat × TypeInfo)
  | .pointer s t => some (s, t)
  | _ => none

/-- Modelled from the spec: `TypeInfo::get_arraytype` from the missing dwarf
module. Returns the element type of an array, `none` otherwise (§4.2 step 2). -/
def TypeInfo.get_arraytype : TypeInfo → Option TypeInfo
  | .array _ t => some t
  | _ => none

/-- The A2L `ADDRESS_TYPE` tag values (`AddrType` in the a2lfile crate):
the four pointer-size categories. -/
inductive AddrType where
  | pbyte
  | pword
  | plong
  | plonglong
deriving Repr, DecidableEq

/-- The `ADDRESS_TYPE` sub-block of an INSTANCE (a2lfile `AddressType`). -/
structure AddressType where
  address_type : AddrType
deriving Repr, DecidableEq

/-- The `MATRIX_DIM` sub-block of an INSTANCE (a2lfile `MatrixDim`); its
`dim_list` holds `u16` extents, modelled as `Nat` values `< 2^16`. -/
structure MatrixDim where
  dim_list : List Nat
deriving Repr, DecidableEq

/-- The `SYMBOL_LINK` sub-block: the explicit symbol-name override. -/
structure SymbolLink where
  symbol_name : String
deriving Repr, DecidableEq

/-- An INSTANCE object of a module. `if_data` models the embedded
transport-metadata blocks by their address sub-fields only (the only part the
update engine touches); `line` is the source line returned by `get_line()`. -/
structure Instance where
  name : String
  symbol_link : Option SymbolLink
  type_ref : String
  start_address : Nat
  address_type : Option AddressType
  matrix_dim : Option MatrixDim
  if_data : List Nat
  line : Nat
deriving Repr, DecidableEq

/-- Modelled from the spec (§3 "Symbol table entry"): the missing debug-data
module. A list of (symbol name, absolute address, type) entries; the address is
the debug information's native width (wider than 32 bits is possible, §9). -/
structure DebugData where
  symbols : List (String × Nat × TypeInfo)
deriving Repr, DecidableEq

/-- Look up a symbol name in the symbol table (first match wins; names are
unique keys per §3). -/
def DebugData.lookup (dd : DebugData) (key : String) : Option (Nat × TypeInfo) :=
  match dd.symbols.find? (fun e => e.1 = key) with
  | some e => some e.2
  | none => none

/-- The resolver's success payload: canonical name actually found, absolute
address, and type reference (§4.1 `ResolvedSymbol`). -/
structure SymInfo where
  name : String
  address : Nat
  typeinfo : TypeInfo
deriving Repr, DecidableEq

/-- Modelled from the spec (§4.1 Symbol Resolver): the missing
`get_symbol_info`. The lookup key is the explicit override if present and
non-empty, else the declared name; success carries the canonical name, address
and type; failure returns a list of human-readable diagnostics. Pure. -/
def get_symbol_info (name : String) (symbol_link : Option SymbolLink)
    (dd : DebugData) : Except (List String) SymInfo :=
  let key := match symbol_link with
    | some sl => if sl.symbol_name = "" then name else sl.symbol_name
    | none => name
  match dd.lookup key with
  | some (addr, ti) => .ok ⟨key, addr, ti⟩
  | none => .error ["symbol not found: " ++ key]

/-- Modelled from the spec (§4.1 side effect note): the missing
`set_symbol_link` writes the canonical name into the override field,
creating it if absent. -/
def set_symbol_link (_old : Option SymbolLink) (name : String) : Option SymbolLink :=
  some ⟨name⟩

/-- Modelled from the spec (§4.3 step 2): the missing `update_ifdata` patches
every embedded transport-metadata address from the resolved address (a 32-bit
field, like the primary address). -/
def update_ifdata (ifd : List Nat) (_symname : String) (_t : TypeInfo)
    (addr : Nat) : List Nat :=
  ifd.map (fun _ => addr % 2 ^ 32)

/-- Modelled from the spec (§4.3 step 3): the missing `zero_if_data`
neutralizes all embedded transport-metadata addresses. -/
def zero_if_data (ifd : List Nat) : List Nat :=
  ifd.map (fun _ => 0)

/-- Modelled from the spec (§4.3 step 3 logging): the missing
`log_update_errors` prefixes each resolver diagnostic with the object kind and
source line. -/
def log_update_errors (errmsgs : List String) (kind : String) (line : Nat) :
    List String :=
  errmsgs.map (fun m => "Error updating " ++ kind ++ " on line " ++
    Nat.repr line ++ ": " ++ m)

/-- The pointer step of `update_instance_address` (lines 98-115 of
instance.rs): if the resolved type is a pointer, set `ADDRESS_TYPE` from the
pointee byte size (1/2/4/8, anything else clears it) and unwrap one level;
otherwise clear `ADDRESS_TYPE`. Returns the possibly-unwrapped type. -/
def apply_pointer_step (inst : Instance) (t : TypeInfo) : Instance × TypeInfo :=
  match t.get_pointer with
  | some (pt_size, basetype) =>
    let inst :=
      if pt_size = 1 then { inst with address_type := some ⟨.pbyte⟩ }
      else if pt_size = 2 then { inst with address_type := some ⟨.pword⟩ }
      else if pt_size = 4 then { inst with address_type := some ⟨.plong⟩ }
      else if pt_size = 8 then { inst with address_type := some ⟨.plonglong⟩ }
      else { inst with address_type := none }
    (inst, basetype)
  | none => ({ inst with address_type := none }, t)

/-- The array step of `update_instance_address` (lines 117-130 of
instance.rs): if the (possibly pointer-unwrapped) type is an array, set
`MATRIX_DIM` from its extents (each cast to `u16`), patch the ifdata with the
element type, and unwrap to the element type; otherwise clear `MATRIX_DIM`. -/
def apply_array_step (inst : Instance) (symname : String) (symaddr : Nat)
    (t : TypeInfo) : Instance × TypeInfo :=
  match t with
  | .array dim arraytype =>
    ({ inst with
        matrix_dim := some ⟨dim.map (fun d => d % 2 ^ 16)⟩,
        if_data := update_ifdata inst.if_data symname arraytype symaddr },
      arraytype)
  | _ => ({ inst with matrix_dim := none }, t)

/-- `update_instance_address` (instance.rs lines 83-144): resolve the symbol;
on success write the canonical link name and the address (truncated to the
32-bit field), apply the pointer and array normalization steps, patch the
ifdata with the leaf type, and return the `TYPEDEF_<x>` reference name plus the
resolved (un-normalized) type; on failure return the diagnostics. Rust mutates
the instance in place; here the (new instance, result) pair is returned. -/
def update_instance_address (inst0 : Instance) (dd : DebugData) :
    Instance × Except (List String) (String × TypeInfo) :=
  match get_symbol_info inst0.name inst0.symbol_link dd with
  | .ok sym_info =>
    let inst1 := { inst0 with
      symbol_link := set_symbol_link inst0.symbol_link sym_info.name,
      start_address := sym_info.address % 2 ^ 32 }
    let p := apply_pointer_step inst1 sym_info.typeinfo
    let q := apply_array_step p.1 sym_info.name sym_info.address p.2
    let inst4 := { q.1 with
      if_data := update_ifdata q.1.if_data sym_info.name q.2 sym_info.address }
    (inst4, .ok (inst0.type_ref, sym_info.typeinfo))
  | .error errmsgs => (inst0, .error errmsgs)

/-- The Typedef Reference Ledger (`TypedefsRefInfo`): keyed by typedef name,
each key holding the ordered pushes of (optional normalized base type,
referrer index into the instance collection). Modelled as an association list;
`TypedefReferrer::Instance(i)` is modelled by the bare index. -/
abbrev Ledger := List (String × List (Option TypeInfo × Nat))

/-- `typedef_types.entry(key).or_default().push(v)`: append `v` to the entry
for `key`, creating the entry if absent. -/
def ledgerPush (l : Ledger) (key : String) (v : Option TypeInfo × Nat) : Ledger :=
  match l with
  | [] => [(key, [v])]
  | (k, vs) :: rest =>
    if k = key then (k, vs ++ [v]) :: rest
    else (k, vs) :: ledgerPush rest key v

/-- `HashSet::insert` on the removal-name set, modelled as an append-if-absent
list (only membership is observed). -/
def hsInsert (s : List String) (n : String) : List String :=
  if n ∈ s then s else s ++ [n]

/-- A module, restricted to what the instance-update engine touches: the
INSTANCE collection, and (for the cascading cleanup) the by-name references
that the axis-points, blob, characteristic and measurement domains hold. -/
structure Module where
  instances : List Instance
  axis_pts_refs : List String
  blob_refs : List String
  characteristic_refs : List String
  measurement_refs : List String
deriving Repr, DecidableEq

/-- Modelled from the spec (§4.4): the missing `cleanup_removed_axis_pts`
removes every axis-points-domain reference whose target name is in the
removal set. -/
def cleanup_removed_axis_pts (m : Module) (removed : List String) : Module :=
  { m with axis_pts_refs := m.axis_pts_refs.filter (fun n => ¬ n ∈ removed) }

/-- Modelled from the spec (§4.4): the missing `cleanup_removed_blobs`. -/
def cleanup_removed_blobs (m : Module) (removed : List String) : Module :=
  { m with blob_refs := m.blob_refs.filter (fun n => ¬ n ∈ removed) }

/-- Modelled from the spec (§4.4): the missing
`cleanup_removed_characteristics`. -/
def cleanup_removed_characteristics (m : Module) (removed : List String) : Module :=
  { m with characteristic_refs := m.characteristic_refs.filter (fun n => ¬ n ∈ removed) }

/-- Modelled from the spec (§4.4): the missing `cleanup_removed_measurements`. -/
def cleanup_removed_measurements (m : Module) (removed : List String) : Module :=
  { m with measurement_refs := m.measurement_refs.filter (fun n => ¬ n ∈ removed) }

/-- `cleanup_removed_instances` (instance.rs lines 146-152): because an
INSTANCE can take the place of an AXIS_PTS, BLOB, CHARACTERISTIC or
MEASUREMENT, removed instance names are pruned from all four domains. -/
def cleanup_removed_instances (m : Module) (removed : List String) : Module :=
  cleanup_removed_measurements
    (cleanup_removed_characteristics
      (cleanup_removed_blobs
        (cleanup_removed_axis_pts m removed) removed) removed) removed

/-- The mutable state threaded through the instance loop of
`update_module_instances`: the rebuilt instance collection (`module.instance`,
being refilled), the log, the removal-name set, the two counters, and the
Ledger. -/
structure UpdState where
  survivors : List Instance
  log_msgs : List String
  removed_items : List String
  instance_updated : Nat
  instance_not_updated : Nat
  typedef_types : Ledger
deriving Repr, DecidableEq

/-- The base-type computation inside the loop (instance.rs lines 38-41): the
resolved type with one pointer unwrapped (if any) and then one array element
taken (if any). -/
def loop_basetype (typeinfo : TypeInfo) : TypeInfo :=
  let basetype := ((typeinfo.get_pointer).map (fun p => p.2)).getD typeinfo
  (basetype.get_arraytype).getD basetype

/-- One iteration of the `for mut instance in instance_list` loop of
`update_module_instances` (instance.rs lines 25-75). -/
def process_instance (dd : DebugData) (preserve_unknown : Bool)
    (nameset : List String) (s : UpdState) (inst0 : Instance) : UpdState :=
  match update_instance_address inst0 dd with
  | (inst, .ok (typedef_ref, typeinfo)) =>
    if typedef_ref ∈ nameset then
      let basetype := loop_basetype typeinfo
      { s with
        typedef_types := ledgerPush s.typedef_types typedef_ref
          (some basetype, s.survivors.length),
        survivors := s.survivors ++ [inst],
        instance_updated := s.instance_updated + 1 }
    else if preserve_unknown then
      { s with
        survivors := s.survivors ++ [inst],
        instance_updated := s.instance_updated + 1 }
    else
      { s with
        log_msgs := s.log_msgs ++ ["Error updating INSTANCE on line " ++
          Nat.repr inst.line ++ ": type ref " ++ inst.type_ref ++
          " does not refer to any TYPEDEF_*"],
        instance_not_updated := s.instance_not_updated + 1 }
  | (inst, .error errmsgs) =>
    let s := { s with
      log_msgs := s.log_msgs ++ log_update_errors errmsgs "INSTANCE" inst.line }
    if preserve_unknown then
      let inst := { inst with
        start_address := 0,
        if_data := zero_if_data inst.if_data }
      { s with
        typedef_types := ledgerPush s.typedef_types inst.type_ref
          (none, s.survivors.length),
        survivors := s.survivors ++ [inst],
        instance_not_updated := s.instance_not_updated + 1 }
    else
      { s with
        removed_items := hsInsert s.removed_items inst.name,
        instance_not_updated := s.instance_not_updated + 1 }

/-- The whole instance loop, as a fold from an initial state. -/
def update_state (dd : DebugData) (preserve_unknown : Bool)
    (nameset : List String) (insts : List Instance) (s : UpdState) : UpdState :=
  insts.foldl (process_instance dd preserve_unknown nameset) s

/-- The outputs of `update_module_instances`: the mutated module, the extended
log, the `(instance_updated, instance_not_updated)` counters, and the Ledger. -/
structure UpdateResult where
  module : Module
  log_msgs : List String
  instance_updated : Nat
  instance_not_updated : Nat
  typedef_types : Ledger
deriving Repr, DecidableEq

/-- `update_module_instances` (instance.rs lines 12-80): swap out the instance
collection, run the loop, put the survivors back, run the cascading cleanup for
the removed names, and return the counters and the Ledger. `nameset` is the
`TypedefNames` set, modelled by a name list with membership. -/
def update_module_instances (module : Module) (dd : DebugData)
    (log_msgs : List String) (preserve_unknown : Bool)
    (nameset : List String) : UpdateResult :=
  let s := update_state dd preserve_unknown nameset module.instances
    ⟨[], log_msgs, [], 0, 0, []⟩
  let m1 := { module with instances := s.survivors }
  let m2 := cleanup_removed_instances m1 s.removed_items
  ⟨m2, s.log_msgs, s.instance_updated, s.instance_not_updated, s.typedef_types⟩

/-! ## Spec-side definitions (for refinement statements)

These follow the wording of the specification (§4.2), not the source, and are
compared with the embedded code in the theorems below. -/

/-- Spec §4.2 step 1, as worded: map pointee byte size 1/2/4/8 to the four
address-class tags; any other size yields no tag. -/
def tag_for_size (s : Nat) : Option AddrType :=
  if s = 1 then some .pbyte
  else if s = 2 then some .pword
  else if s = 4 then some .plong
  else if s = 8 then some .plonglong
  else none

/-- Spec §4.2, as worded: the address class is derived from the top-level type
only — a pointer maps its pointee byte size through `tag_for_size`, any
non-pointer has no address class. -/
def spec_address_class : TypeInfo → Option AddrType
  | .pointer s _ => tag_for_size s
  | _ => none

/-- Spec §4.2 step 1, as worded: unwrap exactly one pointer level if present. -/
def spec_unwrap_pointer : TypeInfo → TypeInfo
  | .pointer _ t => t
  | t => t

/-- Spec §4.2 step 2, as worded: after the optional pointer unwrap, an array
contributes its dimension-extent list (as stored in the `u16` field), any
non-array contributes none. -/
def spec_dim_list (t : TypeInfo) : Option MatrixDim :=
  match spec_unwrap_pointer t with
  | .array d _ => some ⟨d.map (fun x => x % 2 ^ 16)⟩
  | _ => none

/-- Spec §4.2 step 3, as worded: the leaf type after at most one pointer
unwrap followed by at most one array unwrap; deeper nestings stay opaque. -/
def spec_leaf (t : TypeInfo) : TypeInfo :=
  match spec_unwrap_pointer t with
  | .array _ u => u
  | u => u

/-! ## Derived observation definitions -/

/-- The per-object survival outcome of one loop iteration: the object kept in
the rebuilt collection (in its updated form), or `none` when it is dropped.
Used to state that the surviving collection is the input collection filtered
and updated in order. -/
def survivorOf (dd : DebugData) (preserve_unknown : Bool)
    (nameset : List String) (inst0 : Instance) : Option Instance :=
  match update_instance_address inst0 dd with
  | (inst, .ok (tr, _)) =>
    if tr ∈ nameset then some inst
    else if preserve_unknown then some inst
    else none
  | (inst, .error _) =>
    if preserve_unknown then
      some { inst with start_address := 0, if_data := zero_if_data inst.if_data }
    else none

/-- The Ledger/survivor consistency invariant: every Ledger entry's recorded
position refers to an existing survivor whose typedef reference is the entry's
key. -/
def LedgerOk (s : UpdState) : Prop :=
  ∀ k vs, (k, vs) ∈ s.typedef_types → ∀ ty pos, (ty, pos) ∈ vs →
    ∃ inst, s.survivors[pos]? = some inst ∧ inst.type_ref = k

/-- The initial loop state of `update_module_instances` (empty rebuilt
collection, given log, empty removal set, zero counters, empty Ledger). -/
def initState (log_msgs : List String) : UpdState :=
  ⟨[], log_msgs, [], 0, 0, []⟩

/-! ## Concrete sample inputs (for counterexamples and witnesses) -/

/-- A sample INSTANCE: no explicit symbol link, typedef reference `T`,
one embedded metadata address, declared on line 10. -/
def sampleInst : Instance := ⟨"i1", none, "T", 0, none, none, [7], 10⟩

/-- A symbol table resolving `i1` at address 0x1000 with a 2-byte scalar
type. -/
def sampleDD : DebugData := ⟨[("i1", 0x1000, .base 2)]⟩

/-- An empty symbol table: every lookup fails. -/
def emptyDD : DebugData := ⟨[]⟩

/-- A symbol table whose address for `i1` does not fit in 32 bits. -/
def wideDD : DebugData := ⟨[("i1", 2 ^ 32 + 5, .base 2)]⟩

/-- A module holding just the sample instance. -/
def sampleModule : Module := ⟨[sampleInst], [], [], [], []⟩

/-- A module where all four sibling domains hold a reference to `i1`. -/
def refModule : Module := ⟨[sampleInst], ["i1", "x"], ["i1"], ["y", "i1"], ["i1"]⟩

/-- A symbol table resolving `i1` to a pointer-to-array type (pointee byte
size 4, extents 2 x 3). -/
def ptrArrDD : DebugData :=
  ⟨[("i1", 10, .pointer 4 (.array [2, 3] (.base 1)))]⟩

/-- Ordering-scenario instances A, B, C (all referencing typedef `T`). -/
def instA : Instance := ⟨"A", none, "T", 0, none, none, [], 1⟩

/-- See `instA`. -/
def instB : Instance := ⟨"B", none, "T", 0, none, none, [], 2⟩

/-- See `instA`. -/
def instC : Instance := ⟨"C", none, "T", 0, none, none, [], 3⟩

/-- A symbol table resolving `A` and `C` but not `B`. -/
def acDD : DebugData := ⟨[("A", 1, .base 1), ("C", 3, .base 1)]⟩

/-! ## Lemmas about the normalization steps -/

theorem apply_pointer_step_eq (inst : Instance) (t : TypeInfo) :
    apply_pointer_step inst t =
      ({ inst with address_type := (spec_address_class t).map AddressType.mk },
        spec_unwrap_pointer t) := by
  cases t with
  | pointer s u =>
    simp only [apply_pointer_step, TypeInfo.get_pointer, spec_address_class,
      tag_for_size, spec_unwrap_pointer]
    split_ifs <;> rfl
  | base n => rfl
  | array d u => rfl
  | aggregate n => rfl

theorem apply_array_step_snd (inst : Instance) (n : String) (a : Nat)
    (t : TypeInfo) : (apply_array_step inst n a t).2 = (t.get_arraytype).getD t := by
  cases t <;> rfl

theorem apply_array_step_name (inst : Instance) (n : String) (a : Nat)
    (t : TypeInfo) : (apply_array_step inst n a t).1.name = inst.name := by
  cases t <;> rfl

theorem apply_array_step_type_ref (inst : Instance) (n : String) (a : Nat)
    (t : TypeInfo) : (apply_array_step inst n a t).1.type_ref = inst.type_ref := by
  cases t <;> rfl

theorem apply_array_step_line (inst : Instance) (n : String) (a : Nat)
    (t : TypeInfo) : (apply_array_step inst n a t).1.line = inst.line := by
  cases t <;> rfl

theorem apply_array_step_symbol_link (inst : Instance) (n : String) (a : Nat)
    (t : TypeInfo) :
    (apply_array_step inst n a t).1.symbol_link = inst.symbol_link := by
  cases t <;> rfl

theorem apply_array_step_start_address (inst : Instance) (n : String) (a : Nat)
    (t : TypeInfo) :
    (apply_array_step inst n a t).1.start_address = inst.start_address := by
  cases t <;> rfl

theorem apply_array_step_address_type (inst : Instance) (n : String) (a : Nat)
    (t : TypeInfo) :
    (apply_array_step inst n a t).1.address_type = inst.address_type := by
  cases t <;> rfl

theorem apply_array_step_matrix_dim (inst : Instance) (n : String) (a : Nat)
    (t : TypeInfo) :
    (apply_array_step inst n a t).1.matrix_dim =
      match t with
      | .array d _ => some ⟨d.map (fun x => x % 2 ^ 16)⟩
      | _ => none := by
  cases t <;> rfl

/-! ## Lemmas about `update_instance_address` -/

theorem uia_of_error (i : Instance) (dd : DebugData) (msgs : List String)
    (h : get_symbol_info i.name i.symbol_link dd = .error msgs) :
    update_instance_address i dd = (i, .error msgs) := by
  simp [update_instance_address, h]

theorem uia_ok_fields (i : Instance) (dd : DebugData) (si : SymInfo)
    (h : get_symbol_info i.name i.symbol_link dd = .ok si) :
    (update_instance_address i dd).1.symbol_link = some ⟨si.name⟩ ∧
    (update_instance_address i dd).1.start_address = si.address % 2 ^ 32 ∧
    (update_instance_address i dd).1.name = i.name ∧
    (update_instance_address i dd).1.type_ref = i.type_ref ∧
    (update_instance_address i dd).1.line = i.line ∧
    (update_instance_address i dd).1.address_type =
      (spec_address_class si.typeinfo).map AddressType.mk ∧
    (update_instance_address i dd).1.matrix_dim = spec_dim_list si.typeinfo ∧
    (update_instance_address i dd).2 = .ok (i.type_ref, si.typeinfo) := by
  simp only [update_instance_address, h, apply_pointer_step_eq]
  refine ⟨?_, ?_, ?_, ?_, ?_, ?_, ?_, ?_⟩
  all_goals
    simp [apply_array_step_name, apply_array_step_type_ref, apply_array_step_line,
      apply_array_step_symbol_link, apply_array_step_start_address,
      apply_array_step_address_type, apply_array_step_matrix_dim,
      set_symbol_link, spec_dim_list]

theorem uia_name (i : Instance) (dd : DebugData) :
    (update_instance_address i dd).1.name = i.name := by
  cases h : get_symbol_info i.name i.symbol_link dd with
  | ok si => exact (uia_ok_fields i dd si h).2.2.1
  | error msgs => rw [uia_of_error i dd msgs h]

theorem uia_type_ref (i : Instance) (dd : DebugData) :
    (update_instance_address i dd).1.type_ref = i.type_ref := by
  cases h : get_symbol_info i.name i.symbol_link dd with
  | ok si => exact (uia_ok_fields i dd si h).2.2.2.1
  | error msgs => rw [uia_of_error i dd msgs h]

theorem uia_line (i : Instance) (dd : DebugData) :
    (update_instance_address i dd).1.line = i.line := by
  cases h : get_symbol_info i.name i.symbol_link dd with
  | ok si => exact (uia_ok_fields i dd si h).2.2.2.2.1
  | error msgs => rw [uia_of_error i dd msgs h]

theorem uia_ok_tr (i : Instance) (dd : DebugData) (tr : String) (ti : TypeInfo)
    (h : (update_instance_address i dd).2 = .ok (tr, ti)) : tr = i.type_ref := by
  cases hg : get_symbol_info i.name i.symbol_link dd with
  | ok si =>
    have h2 := (uia_ok_fields i dd si hg).2.2.2.2.2.2.2
    rw [h2] at h
    exact ((Prod.mk.injEq _ _ _ _).mp (Except.ok.inj h)).1.symm
  | error msgs =>
    rw [uia_of_error i dd msgs hg] at h
    exact absurd h (by simp)

/-! ## Branch characterizations of one loop iteration -/

theorem step_ok_known (dd : DebugData) (p : Bool) (ns : List String)
    (s : UpdState) (i inst : Instance) (tr : String) (ti : TypeInfo)
    (h : update_instance_address i dd = (inst, .ok (tr, ti)))
    (htr : tr ∈ ns) :
    process_instance dd p ns s i =
      { s with
        typedef_types := ledgerPush s.typedef_types tr
          (some (loop_basetype ti), s.survivors.length),
        survivors := s.survivors ++ [inst],
        instance_updated := s.instance_updated + 1 } := by
  simp only [process_instance, h, if_pos htr]

theorem step_ok_unknown_preserve (dd : DebugData) (ns : List String)
    (s : UpdState) (i inst : Instance) (tr : String) (ti : TypeInfo)
    (h : update_instance_address i dd = (inst, .ok (tr, ti)))
    (htr : tr ∉ ns) :
    process_instance dd true ns s i =
      { s with
        survivors := s.survivors ++ [inst],
        instance_updated := s.instance_updated + 1 } := by
  simp only [process_instance, h, if_neg htr, if_pos trivial, if_true]

theorem step_ok_unknown_drop (dd : DebugData) (ns : List String)
    (s : UpdState) (i inst : Instance) (tr : String) (ti : TypeInfo)
    (h : update_instance_address i dd = (inst, .ok (tr, ti)))
    (htr : tr ∉ ns) :
    process_instance dd false ns s i =
      { s with
        log_msgs := s.log_msgs ++ ["Error updating INSTANCE on line " ++
          Nat.repr inst.line ++ ": type ref " ++ inst.type_ref ++
          " does not refer to any TYPEDEF_*"],
        instance_not_updated := s.instance_not_updated + 1 } := by
  simp only [process_instance, h, if_neg htr, if_false, Bool.false_eq_true]

theorem step_err_preserve (dd : DebugData) (ns : List String)
    (s : UpdState) (i : Instance) (msgs : List String)
    (h : get_symbol_info i.name i.symbol_link dd = .error msgs) :
    process_instance dd true ns s i =
      { s with
        log_msgs := s.log_msgs ++ log_update_errors msgs "INSTANCE" i.line,
        typedef_types := ledgerPush s.typedef_types i.type_ref
          (none, s.survivors.length),
        survivors := s.survivors ++
          [{ i with start_address := 0, if_data := zero_if_data i.if_data }],
        instance_not_updated := s.instance_not_updated + 1 } := by
  simp only [process_instance, uia_of_error i dd msgs h, if_true]

theorem step_err_drop (dd : DebugData) (ns : List String)
    (s : UpdState) (i : Instance) (msgs : List String)
    (h : get_symbol_info i.name i.symbol_link dd = .error msgs) :
    process_instance dd false ns s i =
      { s with
        log_msgs := s.log_msgs ++ log_update_errors msgs "INSTANCE" i.line,
        removed_items := hsInsert s.removed_items i.name,
        instance_not_updated := s.instance_not_updated + 1 } := by
  simp only [process_instance, uia_of_error i dd msgs h, if_false,
    Bool.false_eq_true]

theorem uia_error_inv (i : Instance) (dd : DebugData) (msgs : List String)
    (h : (update_instance_address i dd).2 = .error msgs) :
    get_symbol_info i.name i.symbol_link dd = .error msgs := by
  cases hg : get_symbol_info i.name i.symbol_link dd with
  | ok si =>
    have h2 := (uia_ok_fields i dd si hg).2.2.2.2.2.2.2
    rw [h2] at h
    exact absurd h (by simp)
  | error m =>
    rw [uia_of_error i dd m hg] at h
    have h4 : (Except.error m : Except (List String) (String × TypeInfo)) =
        .error msgs := h
    injection h4 with hm
    rw [hm]

/-! ## Lemmas about the removal set and the Ledger container -/

theorem hsInsert_self (s : List String) (n : String) : n ∈ hsInsert s n := by
  unfold hsInsert
  split
  · assumption
  · simp

theorem hsInsert_mono (s : List String) (n m : String) (h : m ∈ s) :
    m ∈ hsInsert s n := by
  unfold hsInsert
  split
  · exact h
  · exact List.mem_append_left _ h

theorem ledgerPush_mem (l : Ledger) (key : String) (v : Option TypeInfo × Nat)
    (k : String) (vs : List (Option TypeInfo × Nat))
    (h : (k, vs) ∈ ledgerPush l key v) :
    (k, vs) ∈ l ∨
      (k = key ∧ (vs = [v] ∨ ∃ vs0, (k, vs0) ∈ l ∧ vs = vs0 ++ [v])) := by
  induction l with
  | nil =>
    have he : ledgerPush [] key v = [(key, [v])] := rfl
    rw [he, List.mem_singleton] at h
    injection h with hk hv
    exact Or.inr ⟨hk, Or.inl hv⟩
  | cons e rest ih =>
    obtain ⟨k0, vs0⟩ := e
    by_cases hk0 : k0 = key
    · have he : ledgerPush ((k0, vs0) :: rest) key v =
          (k0, vs0 ++ [v]) :: rest := by
        simp [ledgerPush, hk0]
      rw [he, List.mem_cons] at h
      rcases h with h | h
      · injection h with hk hv
        refine Or.inr ⟨hk.trans hk0, Or.inr ⟨vs0, ?_, hv⟩⟩
        rw [hk]
        exact List.mem_cons_self _ _
      · exact Or.inl (List.mem_cons_of_mem _ h)
    · have he : ledgerPush ((k0, vs0) :: rest) key v =
          (k0, vs0) :: ledgerPush rest key v := by
        simp [ledgerPush, hk0]
      rw [he, List.mem_cons] at h
      rcases h with h | h
      · exact Or.inl (List.mem_cons.mpr (Or.inl h))
      · rcases ih h with h2 | ⟨hk, h3⟩
        · exact Or.inl (List.mem_cons_of_mem _ h2)
        · refine Or.inr ⟨hk, ?_⟩
          rcases h3 with h3 | ⟨vs1, hm, hv⟩
          · exact Or.inl h3
          · exact Or.inr ⟨vs1, List.mem_cons_of_mem _ hm, hv⟩

/-! ## One-step accounting lemmas -/

theorem step_counts (dd : DebugData) (p : Bool) (ns : List String)
    (s : UpdState) (i : Instance) :
    (process_instance dd p ns s i).instance_updated +
      (process_instance dd p ns s i).instance_not_updated =
      s.instance_updated + s.instance_not_updated + 1 := by
  cases h : update_instance_address i dd with
  | mk inst r =>
    cases r with
    | ok v =>
      obtain ⟨tr, ti⟩ := v
      by_cases htr : tr ∈ ns
      · rw [step_ok_known dd p ns s i inst tr ti h htr]
        dsimp only
        omega
      · cases p
        · rw [step_ok_unknown_drop dd ns s i inst tr ti h htr]
          dsimp only
          omega
        · rw [step_ok_unknown_preserve dd ns s i inst tr ti h htr]
          dsimp only
          omega
    | error msgs =>
      have hg := uia_error_inv i dd msgs (by rw [h])
      cases p
      · rw [step_err_drop dd ns s i msgs hg]
        dsimp only
        omega
      · rw [step_err_preserve dd ns s i msgs hg]
        dsimp only
        omega

theorem step_survivors (dd : DebugData) (p : Bool) (ns : List String)
    (s : UpdState) (i : Instance) :
    (process_instance dd p ns s i).survivors =
      s.survivors ++ (survivorOf dd p ns i).toList := by
  cases h : update_instance_address i dd with
  | mk inst r =>
    cases r with
    | ok v =>
      obtain ⟨tr, ti⟩ := v
      by_cases htr : tr ∈ ns
      · rw [step_ok_known dd p ns s i inst tr ti h htr]
        simp [survivorOf, h, htr]
      · cases p
        · rw [step_ok_unknown_drop dd ns s i inst tr ti h htr]
          simp [survivorOf, h, htr]
        · rw [step_ok_unknown_preserve dd ns s i inst tr ti h htr]
          simp [survivorOf, h, htr]
    | error msgs =>
      have hg := uia_error_inv i dd msgs (by rw [h])
      cases p
      · rw [step_err_drop dd ns s i msgs hg]
        simp [survivorOf, uia_of_error i dd msgs hg]
      · rw [step_err_preserve dd ns s i msgs hg]
        simp [survivorOf, uia_of_error i dd msgs hg]

theorem step_removed_mono (dd : DebugData) (p : Bool) (ns : List String)
    (s : UpdState) (i : Instance) (n : String) (h : n ∈ s.removed_items) :
    n ∈ (process_instance dd p ns s i).removed_items := by
  cases hu : update_instance_address i dd with
  | mk inst r =>
    cases r with
    | ok v =>
      obtain ⟨tr, ti⟩ := v
      by_cases htr : tr ∈ ns
      · rw [step_ok_known dd p ns s i inst tr ti hu htr]
        exact h
      · cases p
        · rw [step_ok_unknown_drop dd ns s i inst tr ti hu htr]
          exact h
        · rw [step_ok_unknown_preserve dd ns s i inst tr ti hu htr]
          exact h
    | error msgs =>
      have hg := uia_error_inv i dd msgs (by rw [hu])
      cases p
      · rw [step_err_drop dd ns s i msgs hg]
        exact hsInsert_mono _ _ _ h
      · rw [step_err_preserve dd ns s i msgs hg]
        exact h

/-! ## Whole-loop accounting lemmas -/

theorem fold_counts (dd : DebugData) (p : Bool) (ns : List String)
    (insts : List Instance) (s : UpdState) :
    (update_state dd p ns insts s).instance_updated +
      (update_state dd p ns insts s).instance_not_updated =
      s.instance_updated + s.instance_not_updated + insts.length := by
  induction insts generalizing s with
  | nil => simp [update_state]
  | cons i rest ih =>
    have h1 : update_state dd p ns (i :: rest) s =
        update_state dd p ns rest (process_instance dd p ns s i) := rfl
    rw [h1, ih, step_counts]
    simp
    omega

theorem fold_survivors (dd : DebugData) (p : Bool) (ns : List String)
    (insts : List Instance) (s : UpdState) :
    (update_state dd p ns insts s).survivors =
      s.survivors ++ insts.filterMap (survivorOf dd p ns) := by
  induction insts generalizing s with
  | nil => simp [update_state]
  | cons i rest ih =>
    have h1 : update_state dd p ns (i :: rest) s =
        update_state dd p ns rest (process_instance dd p ns s i) := rfl
    rw [h1, ih, step_survivors, List.filterMap_cons]
    cases survivorOf dd p ns i <;> simp

theorem fold_removed_mono (dd : DebugData) (p : Bool) (ns : List String)
    (insts : List Instance) (s : UpdState) (n : String)
    (h : n ∈ s.removed_items) :
    n ∈ (update_state dd p ns insts s).removed_items := by
  induction insts generalizing s with
  | nil => exact h
  | cons i rest ih =>
    exact ih (process_instance dd p ns s i) (step_removed_mono dd p ns s i n h)

/-! ## Name-coverage lemmas: every input object is accounted for -/

theorem step_covers (dd : DebugData) (p : Bool) (ns : List String)
    (s : UpdState) (i : Instance) :
    i.name ∈ ((process_instance dd p ns s i).survivors.map Instance.name) ∨
    i.name ∈ (process_instance dd p ns s i).removed_items ∨
    (p = false ∧
      ∃ inst tr ti, update_instance_address i dd = (inst, .ok (tr, ti)) ∧
        tr ∉ ns) := by
  cases hr : update_instance_address i dd with
  | mk inst r =>
    have hname : inst.name = i.name := by
      have h0 := uia_name i dd
      rw [hr] at h0
      exact h0
    cases r with
    | ok v =>
      obtain ⟨tr, ti⟩ := v
      by_cases htr : tr ∈ ns
      · rw [step_ok_known dd p ns s i inst tr ti hr htr]
        left
        dsimp only
        rw [List.map_append]
        exact List.mem_append_right _ (by simp [hname])
      · cases p
        · right; right
          exact ⟨rfl, inst, tr, ti, rfl, htr⟩
        · rw [step_ok_unknown_preserve dd ns s i inst tr ti hr htr]
          left
          dsimp only
          rw [List.map_append]
          exact List.mem_append_right _ (by simp [hname])
    | error msgs =>
      have hg := uia_error_inv i dd msgs (by rw [hr])
      cases p
      · rw [step_err_drop dd ns s i msgs hg]
        right; left
        exact hsInsert_self _ _
      · rw [step_err_preserve dd ns s i msgs hg]
        left
        dsimp only
        rw [List.map_append]
        exact List.mem_append_right _ (by simp)

theorem fold_covers (dd : DebugData) (p : Bool) (ns : List String)
    (insts : List Instance) (s : UpdState) (i : Instance) (hi : i ∈ insts) :
    i.name ∈ ((update_state dd p ns insts s).survivors.map Instance.name) ∨
    i.name ∈ (update_state dd p ns insts s).removed_items ∨
    (p = false ∧
      ∃ inst tr ti, update_instance_address i dd = (inst, .ok (tr, ti)) ∧
        tr ∉ ns) := by
  induction insts generalizing s with
  | nil => cases hi
  | cons j rest ih =>
    have hstep : update_state dd p ns (j :: rest) s =
        update_state dd p ns rest (process_instance dd p ns s j) := rfl
    rcases List.mem_cons.mp hi with rfl | hi2
    · rcases step_covers dd p ns s i with hc | hc | hc
      · left
        rw [hstep, fold_survivors, List.map_append]
        exact List.mem_append_left _ hc
      · right; left
        rw [hstep]
        exact fold_removed_mono dd p ns rest _ _ hc
      · right; right
        exact hc
    · rw [hstep]
      exact ih _ hi2

/-! ## Preservation of the Ledger/survivor invariant -/

theorem step_ledger_ok (dd : DebugData) (p : Bool) (ns : List String)
    (s : UpdState) (i : Instance) (hs : LedgerOk s) :
    LedgerOk (process_instance dd p ns s i) := by
  cases hr : update_instance_address i dd with
  | mk inst r =>
    have htyref : inst.type_ref = i.type_ref := by
      have h0 := uia_type_ref i dd
      rw [hr] at h0
      exact h0
    cases r with
    | ok v =>
      obtain ⟨tr, ti⟩ := v
      have htr2 : tr = i.type_ref := uia_ok_tr i dd tr ti (by rw [hr])
      by_cases htr : tr ∈ ns
      · rw [step_ok_known dd p ns s i inst tr ti hr htr]
        intro k vs hm ty pos hv
        dsimp only at hm ⊢
        rcases ledgerPush_mem _ _ _ _ _ hm with hold | ⟨hk, hnew⟩
        · obtain ⟨inst0, hg, htyp⟩ := hs k vs hold ty pos hv
          have hlt : pos < s.survivors.length := (List.getElem?_eq_some.mp hg).1
          exact ⟨inst0, by rw [List.getElem?_append_left hlt]; exact hg, htyp⟩
        · rcases hnew with hv1 | ⟨vs0, hm0, hv1⟩
          · rw [hv1, List.mem_singleton] at hv
            injection hv with hty hpos
            refine ⟨inst, ?_, by rw [htyref, hk, htr2]⟩
            rw [hpos]
            exact List.getElem?_concat_length _ _
          · rw [hv1, List.mem_append] at hv
            rcases hv with hv | hv
            · obtain ⟨inst0, hg, htyp⟩ := hs k vs0 hm0 ty pos hv
              have hlt : pos < s.survivors.length := (List.getElem?_eq_some.mp hg).1
              exact ⟨inst0, by rw [List.getElem?_append_left hlt]; exact hg, htyp⟩
            · rw [List.mem_singleton] at hv
              injection hv with hty hpos
              refine ⟨inst, ?_, by rw [htyref, hk, htr2]⟩
              rw [hpos]
              exact List.getElem?_concat_length _ _
      · cases p
        · rw [step_ok_unknown_drop dd ns s i inst tr ti hr htr]
          intro k vs hm ty pos hv
          exact hs k vs hm ty pos hv
        · rw [step_ok_unknown_preserve dd ns s i inst tr ti hr htr]
          intro k vs hm ty pos hv
          obtain ⟨inst0, hg, htyp⟩ := hs k vs hm ty pos hv
          have hlt : pos < s.survivors.length := (List.getElem?_eq_some.mp hg).1
          exact ⟨inst0, by dsimp only; rw [List.getElem?_append_left hlt]; exact hg,
            htyp⟩
    | error msgs =>
      have hg := uia_error_inv i dd msgs (by rw [hr])
      cases p
      · rw [step_err_drop dd ns s i msgs hg]
        intro k vs hm ty pos hv
        exact hs k vs hm ty pos hv
      · rw [step_err_preserve dd ns s i msgs hg]
        intro k vs hm ty pos hv
        dsimp only at hm ⊢
        rcases ledgerPush_mem _ _ _ _ _ hm with hold | ⟨hk, hnew⟩
        · obtain ⟨inst0, hg2, htyp⟩ := hs k vs hold ty pos hv
          have hlt : pos < s.survivors.length := (List.getElem?_eq_some.mp hg2).1
          exact ⟨inst0, by rw [List.getElem?_append_left hlt]; exact hg2, htyp⟩
        · rcases hnew with hv1 | ⟨vs0, hm0, hv1⟩
          · rw [hv1, List.mem_singleton] at hv
            injection hv with hty hpos
            rw [hpos]
            exact ⟨_, List.getElem?_concat_length _ _, by dsimp only; rw [hk]⟩
          · rw [hv1, List.mem_append] at hv
            rcases hv with hv | hv
            · obtain ⟨inst0, hg2, htyp⟩ := hs k vs0 hm0 ty pos hv
              have hlt : pos < s.survivors.length := (List.getElem?_eq_some.mp hg2).1
              exact ⟨inst0, by rw [List.getElem?_append_left hlt]; exact hg2, htyp⟩
            · rw [List.mem_singleton] at hv
              injection hv with hty hpos
              rw [hpos]
              exact ⟨_, List.getElem?_concat_length _ _, by dsimp only; rw [hk]⟩

theorem fold_ledger_ok (dd : DebugData) (p : Bool) (ns : List String)
    (insts : List Instance) (s : UpdState) (hs : LedgerOk s) :
    LedgerOk (update_state dd p ns insts s) := by
  induction insts generalizing s with
  | nil => exact hs
  | cons i rest ih =>
    exact ih (process_instance dd p ns s i) (step_ledger_ok dd p ns s i hs)

theorem initState_ledger_ok (log : List String) : LedgerOk (initState log) := by
  intro k vs hm
  exact absurd hm (List.not_mem_nil _)

/-! ## Claim theorems -/

/-- C1 (counterexample): the claim says an instance whose symbol resolves but
whose type-template reference is unknown is treated as a resolution failure:
kept zeroed and counted as not updated under preserve_unknown = true, with a
diagnostic. On the code, with preserve_unknown = true the object is instead
kept fully updated (address 0x1000, not zero), counted as updated, and no
diagnostic is emitted: here the symbol `i1` resolves in `sampleDD` but the
typedef reference `T` is not in the (empty) known-template set. -/
theorem claim_C1_counterexample :
    (update_module_instances sampleModule sampleDD [] true []).instance_updated = 1 ∧
    (update_module_instances sampleModule sampleDD [] true []).instance_not_updated = 0 ∧
    (update_module_instances sampleModule sampleDD [] true []).log_msgs = [] ∧
    (update_module_instances sampleModule sampleDD [] true
      []).module.instances.map Instance.start_address = [0x1000] := by
  refine ⟨?_, ?_, ?_, ?_⟩ <;> decide

/-- C1 (amended): for an instance whose symbol resolves but whose
type-template reference is not in the known-template set, the code keeps the
object fully updated and counts it as updated with no diagnostic when
preserve_unknown = true; when preserve_unknown = false it drops the object
(without recording its name in the removal set), counts it as not updated, and
emits a diagnostic naming the bad template reference. -/
theorem claim_C1_unknown_typedef (dd : DebugData) (ns : List String)
    (s : UpdState) (i inst : Instance) (tr : String) (ti : TypeInfo)
    (h : update_instance_address i dd = (inst, Except.ok (tr, ti)))
    (htr : tr ∉ ns) :
    process_instance dd true ns s i =
      { s with
        survivors := s.survivors ++ [inst],
        instance_updated := s.instance_updated + 1 } ∧
    process_instance dd false ns s i =
      { s with
        log_msgs := s.log_msgs ++ ["Error updating INSTANCE on line " ++
          Nat.repr inst.line ++ ": type ref " ++ inst.type_ref ++
          " does not refer to any TYPEDEF_*"],
        instance_not_updated := s.instance_not_updated + 1 } ∧
    inst.type_ref = i.type_ref ∧ tr = i.type_ref := by
  refine ⟨step_ok_unknown_preserve dd ns s i inst tr ti h htr,
    step_ok_unknown_drop dd ns s i inst tr ti h htr, ?_,
    uia_ok_tr i dd tr ti (by rw [h])⟩
  have h0 := uia_type_ref i dd
  rw [h] at h0
  exact h0

/-- C1 (witness): the amended claim instantiated at the sample instance, whose
symbol resolves in `sampleDD` while `T` is not in the empty template set. -/
theorem claim_C1_witness :
    process_instance sampleDD true [] (initState []) sampleInst =
      { (initState []) with
        survivors := [⟨"i1", some ⟨"i1"⟩, "T", 0x1000, none, none, [0x1000], 10⟩],
        instance_updated := 1 } ∧
    (process_instance sampleDD false [] (initState []) sampleInst).removed_items
      = [] := by
  have h := claim_C1_unknown_typedef sampleDD [] (initState []) sampleInst
    ⟨"i1", some ⟨"i1"⟩, "T", 0x1000, none, none, [0x1000], 10⟩ "T" (.base 2)
    (by rfl) (by decide)
  exact ⟨h.1, by rw [h.2.1]; rfl⟩

/-- C2 (counterexample): the claim says every object absent from the surviving
collection has its name in the removal-name set. Here the sample instance
resolves but its typedef reference `T` is unknown and preserve_unknown =
false: the object is absent from the survivors, yet the removal-name set is
empty (and so is the Ledger). -/
theorem claim_C2_counterexample :
    (update_state sampleDD false [] [sampleInst] (initState [])).survivors = [] ∧
    (update_state sampleDD false [] [sampleInst] (initState [])).removed_items
      = [] ∧
    (update_state sampleDD false [] [sampleInst] (initState [])).typedef_types
      = [] := by
  refine ⟨?_, ?_, ?_⟩ <;> decide

/-- C2 (amended): every input instance either survives (its name appears in
the surviving collection), or its name is in the removal-name set, or it was
dropped because its symbol resolved but its type-template reference was
unknown under preserve_unknown = false — in that last case the name is not
recorded. Moreover every Ledger entry position refers to a surviving slot, so
an object absent from the survivors has no Ledger entry. -/
theorem claim_C2_absent_accounting (dd : DebugData) (p : Bool)
    (ns : List String) (insts : List Instance) (log : List String) :
    (∀ i ∈ insts,
      i.name ∈ ((update_state dd p ns insts
        (initState log)).survivors.map Instance.name) ∨
      i.name ∈ (update_state dd p ns insts (initState log)).removed_items ∨
      (p = false ∧ ∃ inst tr ti,
        update_instance_address i dd = (inst, Except.ok (tr, ti)) ∧ tr ∉ ns)) ∧
    (∀ k vs, (k, vs) ∈ (update_state dd p ns insts (initState log)).typedef_types →
      ∀ ty pos, (ty, pos) ∈ vs →
        pos < (update_state dd p ns insts (initState log)).survivors.length) := by
  constructor
  · intro i hi
    exact fold_covers dd p ns insts (initState log) i hi
  · intro k vs hm ty pos hv
    obtain ⟨inst0, hg, _⟩ :=
      fold_ledger_ok dd p ns insts (initState log) (initState_ledger_ok log)
        k vs hm ty pos hv
    exact (List.getElem?_eq_some.mp hg).1

/-- C2 (witness): the amended accounting instantiated at the sample instance
under an empty symbol table with preserve_unknown = false. -/
theorem claim_C2_witness :
    sampleInst.name ∈ ((update_state emptyDD false [] [sampleInst]
      (initState [])).survivors.map Instance.name) ∨
    sampleInst.name ∈ (update_state emptyDD false [] [sampleInst]
      (initState [])).removed_items ∨
    ((false : Bool) = false ∧ ∃ inst tr ti,
      update_instance_address sampleInst emptyDD = (inst, Except.ok (tr, ti)) ∧
        tr ∉ ([] : List String)) :=
  (claim_C2_absent_accounting emptyDD false [] [sampleInst] []).1 sampleInst
    (List.mem_singleton.mpr rfl)

/-- C3 (confirmed): on a resolved type, the normalization sets the
address-class from the pointee byte size for a pointer (1/2/4/8 map to the
four tags, anything else clears it), clears it for a non-pointer; sets the
dimension list from an array found after the single optional pointer unwrap
and clears it otherwise; never fails; and the leaf type used downstream is
obtained by at most one pointer unwrap followed by at most one array unwrap
(deeper nestings are left opaque). -/
theorem claim_C3_normalization (i : Instance) (dd : DebugData) (si : SymInfo)
    (h : get_symbol_info i.name i.symbol_link dd = .ok si) :
    (update_instance_address i dd).1.address_type =
      (spec_address_class si.typeinfo).map AddressType.mk ∧
    (update_instance_address i dd).1.matrix_dim = spec_dim_list si.typeinfo ∧
    (update_instance_address i dd).2 = .ok (i.type_ref, si.typeinfo) ∧
    (∀ t : TypeInfo, loop_basetype t = spec_leaf t) := by
  have hf := uia_ok_fields i dd si h
  refine ⟨hf.2.2.2.2.2.1, hf.2.2.2.2.2.2.1, hf.2.2.2.2.2.2.2, ?_⟩
  intro t
  cases t with
  | pointer s u => cases u <;> rfl
  | base n => rfl
  | array d u => rfl
  | aggregate n => rfl

/-- C3 (witness): the normalization characterization instantiated at a
pointer-to-array symbol (pointee size 4, extents 2 x 3). -/
theorem claim_C3_witness :
    (update_instance_address sampleInst ptrArrDD).1.address_type =
      (spec_address_class (TypeInfo.pointer 4
        (.array [2, 3] (.base 1)))).map AddressType.mk ∧
    (update_instance_address sampleInst ptrArrDD).1.matrix_dim =
      spec_dim_list (TypeInfo.pointer 4 (.array [2, 3] (.base 1))) ∧
    (update_instance_address sampleInst ptrArrDD).2 =
      .ok (sampleInst.type_ref, TypeInfo.pointer 4 (.array [2, 3] (.base 1))) := by
  have h := claim_C3_normalization sampleInst ptrArrDD
    ⟨"i1", 10, .pointer 4 (.array [2, 3] (.base 1))⟩ (by rfl)
  exact ⟨h.1, h.2.1, h.2.2.1⟩

/-- C4 (confirmed): an instance whose symbol resolution fails under
preserve_unknown = true survives with address zero and all embedded
transport-metadata addresses neutralized, contributes a Ledger entry with no
type under its type-template name at the pre-append survivors length, and
increments the not-updated counter. -/
theorem claim_C4_err_preserved_zeroed (dd : DebugData) (ns : List String)
    (s : UpdState) (i : Instance) (msgs : List String)
    (h : get_symbol_info i.name i.symbol_link dd = .error msgs) :
    (process_instance dd true ns s i).survivors = s.survivors ++
      [{ i with
        start_address := 0,
        if_data := zero_if_data i.if_data }] ∧
    (∀ a ∈ zero_if_data i.if_data, a = 0) ∧
    (process_instance dd true ns s i).typedef_types =
      ledgerPush s.typedef_types i.type_ref (none, s.survivors.length) ∧
    (process_instance dd true ns s i).instance_not_updated =
      s.instance_not_updated + 1 ∧
    (process_instance dd true ns s i).instance_updated = s.instance_updated := by
  rw [step_err_preserve dd ns s i msgs h]
  refine ⟨rfl, ?_, rfl, rfl, rfl⟩
  intro a ha
  simp [zero_if_data] at ha
  exact ha.2

/-- C4 (witness): the preserve-unknown failure path instantiated at the sample
instance with an empty symbol table. -/
theorem claim_C4_witness :
    (process_instance emptyDD true ["T"] (initState []) sampleInst).survivors =
      [{ sampleInst with
        start_address := 0,
        if_data := zero_if_data sampleInst.if_data }] ∧
    (process_instance emptyDD true ["T"] (initState [])
      sampleInst).instance_not_updated = 1 := by
  have h := claim_C4_err_preserved_zeroed emptyDD ["T"] (initState [])
    sampleInst ["symbol not found: i1"] (by rfl)
  exact ⟨h.1.trans rfl, h.2.2.2.1⟩

/-- C5 (confirmed): the surviving collection is exactly the input collection
mapped through the per-object outcome in original order (dropped objects are
skipped, never reordered), and every Ledger entry's recorded position refers
to the survivor at that index, whose typedef reference is the entry's key. -/
theorem claim_C5_order_positions (dd : DebugData) (p : Bool)
    (ns : List String) (insts : List Instance) (log : List String) :
    (update_state dd p ns insts (initState log)).survivors =
      insts.filterMap (survivorOf dd p ns) ∧
    LedgerOk (update_state dd p ns insts (initState log)) := by
  constructor
  · have h := fold_survivors dd p ns insts (initState log)
    simpa [initState] using h
  · exact fold_ledger_ok dd p ns insts (initState log) (initState_ledger_ok log)

/-- C5 (witness): the order/position property instantiated at the input
[A, B, C] whose middle element B fails resolution and is dropped: the
survivors are the per-object outcomes in input order, and the Ledger entry
recorded at position 1 refers to the survivor at index 1 (C, not position 2). -/
theorem claim_C5_witness :
    (update_state acDD false ["T"] [instA, instB, instC]
      (initState [])).survivors =
      [instA, instB, instC].filterMap (survivorOf acDD false ["T"]) ∧
    (∃ inst, (update_state acDD false ["T"] [instA, instB, instC]
        (initState [])).survivors[1]? = some inst ∧ inst.type_ref = "T") :=
  ⟨(claim_C5_order_positions acDD false ["T"] [instA, instB, instC] []).1,
    (claim_C5_order_positions acDD false ["T"] [instA, instB, instC] []).2
      "T" [(some (.base 1), 0), (some (.base 1), 1)] (by decide)
      (some (.base 1)) 1 (by decide)⟩

/-- C6 (counterexample): the claim says the address field is set equal to the
symbol table's address for the canonical name. With a symbol address that does
not fit in 32 bits (2^32 + 5), the resolution succeeds but the written field
is 5, not the table's address. -/
theorem claim_C6_counterexample :
    (update_instance_address sampleInst wideDD).2 =
      .ok ("T", TypeInfo.base 2) ∧
    wideDD.lookup "i1" = some (2 ^ 32 + 5, TypeInfo.base 2) ∧
    (update_instance_address sampleInst wideDD).1.start_address = 5 ∧
    (update_instance_address sampleInst wideDD).1.start_address ≠ 2 ^ 32 + 5 := by
  refine ⟨by rfl, by decide, by decide, by decide⟩

/-- C6 (amended): on successful resolution the canonical symbol name is
written into the symbol-link override and the address field equals the symbol
table's address reduced modulo 2^32 (hence equals it exactly whenever the
address fits in 32 bits). -/
theorem claim_C6_canonical_writeback (i : Instance) (dd : DebugData)
    (si : SymInfo) (h : get_symbol_info i.name i.symbol_link dd = .ok si) :
    (update_instance_address i dd).1.symbol_link = some ⟨si.name⟩ ∧
    (update_instance_address i dd).1.start_address = si.address % 2 ^ 32 := by
  have hf := uia_ok_fields i dd si h
  exact ⟨hf.1, hf.2.1⟩

/-- C6 (witness): the write-back property instantiated at a symbol whose
address (0x1000) fits in 32 bits. -/
theorem claim_C6_witness :
    (update_instance_address sampleInst sampleDD).1.symbol_link =
      some ⟨"i1"⟩ ∧
    (update_instance_address sampleInst sampleDD).1.start_address =
      0x1000 % 2 ^ 32 :=
  claim_C6_canonical_writeback sampleInst sampleDD ⟨"i1", 0x1000, .base 2⟩
    (by rfl)

/-- C7 (confirmed): on successful resolution the 32-bit address field receives
the debug-information address reduced modulo 2^32, and the out-of-range case
is never turned into a resolution failure (the result is still Ok). -/
theorem claim_C7_truncated_address (i : Instance) (dd : DebugData)
    (si : SymInfo) (h : get_symbol_info i.name i.symbol_link dd = .ok si) :
    (update_instance_address i dd).1.start_address = si.address % 2 ^ 32 ∧
    (update_instance_address i dd).2 = .ok (i.type_ref, si.typeinfo) := by
  have hf := uia_ok_fields i dd si h
  exact ⟨hf.2.1, hf.2.2.2.2.2.2.2⟩

/-- C7 (witness): the truncation property instantiated at a 64-bit address
2^32 + 5, truncated to 5 while the update still succeeds. -/
theorem claim_C7_witness :
    (update_instance_address sampleInst wideDD).1.start_address =
      (2 ^ 32 + 5) % 2 ^ 32 ∧
    (update_instance_address sampleInst wideDD).2 =
      .ok (sampleInst.type_ref, TypeInfo.base 2) :=
  claim_C7_truncated_address sampleInst wideDD ⟨"i1", 2 ^ 32 + 5, .base 2⟩
    (by rfl)

/-- C8 (confirmed): the cascading cleanup for removed instance names prunes
every reference to those names from all four sibling domains (axis-points,
blob, characteristic, measurement). -/
theorem claim_C8_cleanup (m : Module) (removed : List String) :
    (∀ n ∈ (cleanup_removed_instances m removed).axis_pts_refs, n ∉ removed) ∧
    (∀ n ∈ (cleanup_removed_instances m removed).blob_refs, n ∉ removed) ∧
    (∀ n ∈ (cleanup_removed_instances m removed).characteristic_refs,
      n ∉ removed) ∧
    (∀ n ∈ (cleanup_removed_instances m removed).measurement_refs,
      n ∉ removed) := by
  refine ⟨?_, ?_, ?_, ?_⟩ <;> intro n hn <;>
    simp [cleanup_removed_instances, cleanup_removed_axis_pts,
      cleanup_removed_blobs, cleanup_removed_characteristics,
      cleanup_removed_measurements, List.mem_filter] at hn <;>
    exact hn.2

/-- C8 (witness): after cleaning up the removed instance name `i1`, the
axis-points domain of the reference-holding module no longer references it. -/
theorem claim_C8_witness :
    ("i1" : String) ∉ (cleanup_removed_instances refModule ["i1"]).axis_pts_refs :=
  fun h => absurd ((claim_C8_cleanup refModule ["i1"]).1 "i1" h) (by simp)

/-- C9 (confirmed): the two counters returned by the instance update procedure
partition the input collection — their sum equals the input length, every
object incrementing exactly one of them. -/
theorem claim_C9_counters_sum (m : Module) (dd : DebugData)
    (log : List String) (p : Bool) (ns : List String) :
    (update_module_instances m dd log p ns).instance_updated +
      (update_module_instances m dd log p ns).instance_not_updated =
      m.instances.length := by
  have h1 : (update_module_instances m dd log p ns).instance_updated =
      (update_state dd p ns m.instances (initState log)).instance_updated := rfl
  have h2 : (update_module_instances m dd log p ns).instance_not_updated =
      (update_state dd p ns m.instances (initState log)).instance_not_updated :=
    rfl
  rw [h1, h2, fold_counts]
  simp [initState]

/-- C10 (confirmed): when the symbol lookup fails, `update_instance_address`
returns the diagnostics as an error and the instance is returned completely
unmodified — no field write happens before the error propagates. -/
theorem claim_C10_error_no_mutation (i : Instance) (dd : DebugData)
    (msgs : List String)
    (h : get_symbol_info i.name i.symbol_link dd = .error msgs) :
    update_instance_address i dd = (i, .error msgs) :=
  uia_of_error i dd msgs h

/-- C10 (witness): the no-mutation error path instantiated at the sample
instance with an empty symbol table. -/
theorem claim_C10_witness :
    update_instance_address sampleInst emptyDD =
      (sampleInst, .error ["symbol not found: i1"]) :=
  claim_C10_error_no_mutation sampleInst emptyDD ["symbol not found: i1"]
    (by rfl)

end A2lTool
